import Mathlib

/-!
Verification of the Skewer-to-Blender scene converter
(`src/skewer_to_blend/convert.py`).

The Python code is shallowly embedded: vectors become a `Vec3` structure,
pure numeric material / transform logic is embedded over `ℚ` so that it is
decidable, and the geometric camera / rotation logic is embedded over `ℝ`
(it needs square roots and trigonometric functions).  Stateful `bpy`
mutation is modelled by the values the script assigns (records of assigned
fields, instruction lists).
-/

set_option maxHeartbeats 1000000

/-- A 3-component vector, the embedding of Python 3-element lists and
`mathutils.Vector`.  Polymorphic so the decidable parts of the development
can use `ℚ` while the geometric parts use `ℝ`. -/
structure Vec3 (α : Type) where
  x : α
  y : α
  z : α
deriving DecidableEq, Repr

namespace Vec3

variable {α : Type} [CommRing α]

def add (v w : Vec3 α) : Vec3 α := ⟨v.x + w.x, v.y + w.y, v.z + w.z⟩

def sub (v w : Vec3 α) : Vec3 α := ⟨v.x - w.x, v.y - w.y, v.z - w.z⟩

/-- Scalar multiple (`vector * scalar` in mathutils). -/
def smul (k : α) (v : Vec3 α) : Vec3 α := ⟨k * v.x, k * v.y, k * v.z⟩

/-- Componentwise product (how Blender's per-axis `scale` acts). -/
def hadamard (v w : Vec3 α) : Vec3 α := ⟨v.x * w.x, v.y * w.y, v.z * w.z⟩

def dot (v w : Vec3 α) : α := v.x * w.x + v.y * w.y + v.z * w.z

def cross (v w : Vec3 α) : Vec3 α :=
  ⟨v.y * w.z - v.z * w.y, v.z * w.x - v.x * w.z, v.x * w.y - v.y * w.x⟩

def zero : Vec3 α := ⟨0, 0, 0⟩

end Vec3

theorem Vec3.ext_iff {α : Type} {v w : Vec3 α} :
    v = w ↔ v.x = w.x ∧ v.y = w.y ∧ v.z = w.z := by
  cases v; cases w; simp [mk.injEq]

open Vec3

/-- `to_blender` (convert.py line 46): convert a Skewer (Y-up, Z-backward)
coordinate to Blender (Z-up, Y-forward).  Mapping `(xs, ys, zs) ↦ (xs, -zs, ys)`. -/
def to_blender {α : Type} [Neg α] (v : Vec3 α) : Vec3 α := ⟨v.x, -v.z, v.y⟩

/-- Modelled from the spec: the documented inverse of `to_blender`,
`(x, y, z) ↦ (x, z, -y)` (spec §4.1; the inverse itself does not appear in
convert.py, only its specification). -/
def from_blender {α : Type} [Neg α] (v : Vec3 α) : Vec3 α := ⟨v.x, v.z, -v.y⟩

/-- The matrix of the linear map `to_blender` acting on column vectors
`(x, y, z)`. -/
def to_blender_matrix : Matrix (Fin 3) (Fin 3) ℝ :=
  !![1, 0, 0; 0, 0, -1; 0, 1, 0]

/-- C2: the axis conversion maps `(x, y, z)` to `(x, -z, y)`, preserves the
dot product (hence is orthonormal), its matrix has determinant `+1`, and the
documented inverse `(x, y, z) ↦ (x, z, -y)` round-trips every vector. -/
theorem to_blender_proper_rotation :
    (∀ v : Vec3 ℝ, to_blender v = ⟨v.x, -v.z, v.y⟩)
    ∧ (∀ v w : Vec3 ℝ, dot (to_blender v) (to_blender w) = dot v w)
    ∧ to_blender_matrix.det = 1
    ∧ (∀ v : Vec3 ℝ,
        to_blender_matrix.mulVec ![v.x, v.y, v.z]
          = ![(to_blender v).x, (to_blender v).y, (to_blender v).z])
    ∧ (∀ v : Vec3 ℝ, from_blender (to_blender v) = v) := by
  refine ⟨fun v => rfl, fun v w => ?_, ?_, fun v => ?_, fun v => ?_⟩
  · simp [dot, to_blender]; ring
  · simp [to_blender_matrix, Matrix.det_fin_three]
  · funext i
    fin_cases i <;>
      simp [to_blender_matrix, to_blender, Matrix.mulVec, Matrix.dotProduct,
        Fin.sum_univ_three]
  · simp [from_blender, to_blender]

/- ---------------------------------------------------------------------------
Real-valued geometry: normalization (mathutils `.normalized()`), the camera
basis of `setup_camera` (convert.py lines 150-174), and Euler rotations.
--------------------------------------------------------------------------- -/

/-- `mathutils.Vector.normalized()`: returns `v / ‖v‖`, and returns the zero
vector unchanged when the length is zero (mathutils raises no error on
degenerate input). -/
noncomputable def normalized (v : Vec3 ℝ) : Vec3 ℝ :=
  if dot v v = 0 then v else smul (Real.sqrt (dot v v))⁻¹ v

/-- convert.py line 162: `forward = (look_at - look_from).normalized()`,
computed on the `to_blender`-converted camera points. -/
noncomputable def cameraForward (look_from look_at : Vec3 ℝ) : Vec3 ℝ :=
  normalized (sub (to_blender look_at) (to_blender look_from))

/-- convert.py line 163: `right = forward.cross(vup).normalized()`. -/
noncomputable def cameraRight (look_from look_at vup : Vec3 ℝ) : Vec3 ℝ :=
  normalized (cross (cameraForward look_from look_at) (to_blender vup))

/-- convert.py line 164: `up = right.cross(forward)`. -/
noncomputable def cameraUp (look_from look_at vup : Vec3 ℝ) : Vec3 ℝ :=
  cross (cameraRight look_from look_at vup) (cameraForward look_from look_at)

/-- convert.py lines 166-173: the camera world matrix, rows
`[right.x, up.x, -forward.x, look_from.x]` etc., i.e. columns
`(right, up, -forward)` with translation `look_from` (converted). -/
noncomputable def setup_camera (look_from look_at vup : Vec3 ℝ) :
    Matrix (Fin 4) (Fin 4) ℝ :=
  let r := cameraRight look_from look_at vup
  let u := cameraUp look_from look_at vup
  let f := cameraForward look_from look_at
  let lf := to_blender look_from
  !![r.x, u.x, -f.x, lf.x;
     r.y, u.y, -f.y, lf.y;
     r.z, u.z, -f.z, lf.z;
     0,   0,   0,    1]

/-- `math.radians`: degrees to radians. -/
noncomputable def radians (d : ℝ) : ℝ := d * (Real.pi / 180)

/-- Right-handed rotation about the X axis (the common convention of Skewer
and Blender, both right-handed frames). -/
noncomputable def rotX (t : ℝ) (v : Vec3 ℝ) : Vec3 ℝ :=
  ⟨v.x, Real.cos t * v.y - Real.sin t * v.z, Real.sin t * v.y + Real.cos t * v.z⟩

/-- Right-handed rotation about the Y axis. -/
noncomputable def rotY (t : ℝ) (v : Vec3 ℝ) : Vec3 ℝ :=
  ⟨Real.cos t * v.x + Real.sin t * v.z, v.y, -(Real.sin t) * v.x + Real.cos t * v.z⟩

/-- Right-handed rotation about the Z axis. -/
noncomputable def rotZ (t : ℝ) (v : Vec3 ℝ) : Vec3 ℝ :=
  ⟨Real.cos t * v.x - Real.sin t * v.y, Real.sin t * v.x + Real.cos t * v.y, v.z⟩

/-- Blender `rotation_euler` with order `"ZXY"` and angle triple
`(angles.x about X, angles.y about Y, angles.z about Z)`: the Z rotation is
applied first, then X, then Y (extrinsic). -/
noncomputable def eulerZXY (angles : Vec3 ℝ) (v : Vec3 ℝ) : Vec3 ℝ :=
  rotY angles.y (rotX angles.x (rotZ angles.z v))

/-- The Skewer source rotation: intrinsic order Y-then-X-then-Z with degree
angles `(r.x about X, r.y about Y, r.z about Z)`, i.e. the YXZ composition
`Ry ∘ Rx ∘ Rz` (convert.py line 305 comment: "Rotation order Skewer YXZ"). -/
noncomputable def sourceRotationYXZ (r : Vec3 ℝ) (v : Vec3 ℝ) : Vec3 ℝ :=
  rotY (radians r.y) (rotX (radians r.x) (rotZ (radians r.z) v))

/-- The `transform` block of an asset object definition (convert.py
lines 297-300): each field may be absent, with defaults. -/
structure SceneTransform where
  scale : Option (Vec3 ℝ)
  rotate : Option (Vec3 ℝ)
  translate : Option (Vec3 ℝ)

/-- The object fields assigned by the scene-level transform loop. -/
structure ObjectPlacement where
  scale : Vec3 ℝ
  rotationOrder : String
  rotationEuler : Vec3 ℝ
  location : Vec3 ℝ

/-- convert.py lines 297-313: read the transform block with defaults, swap
the Y/Z scale components, set rotation order `"ZXY"` with euler angles
`(radians rx, radians (-rz), radians ry)`, and convert the translation. -/
noncomputable def applySceneTransform (tf : SceneTransform) : ObjectPlacement :=
  let scale := tf.scale.getD ⟨1, 1, 1⟩
  let rotate := tf.rotate.getD ⟨0, 0, 0⟩
  let translate := tf.translate.getD ⟨0, 0, 0⟩
  { scale := ⟨scale.x, scale.z, scale.y⟩
    rotationOrder := "ZXY"
    rotationEuler := ⟨radians rotate.x, radians (-rotate.z), radians rotate.y⟩
    location := to_blender translate }

/- ---------------------------------------------------------------------------
Vector algebra helper lemmas.
--------------------------------------------------------------------------- -/

theorem dot_comm {α : Type} [CommRing α] (v w : Vec3 α) : dot v w = dot w v := by
  simp [dot]; ring

theorem dot_cross_left {α : Type} [CommRing α] (a b : Vec3 α) :
    dot (cross a b) a = 0 := by
  simp [dot, cross]; ring

theorem dot_cross_right {α : Type} [CommRing α] (a b : Vec3 α) :
    dot (cross a b) b = 0 := by
  simp [dot, cross]; ring

theorem dot_cross_self_lagrange {α : Type} [CommRing α] (a b : Vec3 α) :
    dot (cross a b) (cross a b) = dot a a * dot b b - (dot a b) ^ 2 := by
  simp [dot, cross]; ring

theorem cross_smul_left {α : Type} [CommRing α] (k : α) (a b : Vec3 α) :
    cross (smul k a) b = smul k (cross a b) := by
  simp [cross, smul, Vec3.ext_iff]; refine ⟨by ring, by ring, by ring⟩

theorem dot_smul_left {α : Type} [CommRing α] (k : α) (a b : Vec3 α) :
    dot (smul k a) b = k * dot a b := by
  simp [dot, smul]; ring

theorem dot_smul_smul {α : Type} [CommRing α] (k m : α) (a b : Vec3 α) :
    dot (smul k a) (smul m b) = k * m * dot a b := by
  simp [dot, smul]; ring

theorem dot_self_nonneg (v : Vec3 ℝ) : 0 ≤ dot v v := by
  simp only [dot]
  nlinarith [sq_nonneg v.x, sq_nonneg v.y, sq_nonneg v.z]

theorem dot_self_eq_zero_iff (v : Vec3 ℝ) :
    dot v v = 0 ↔ v = (⟨0, 0, 0⟩ : Vec3 ℝ) := by
  constructor
  · intro h
    simp only [dot] at h
    have hx : v.x ^ 2 = 0 := by nlinarith [sq_nonneg v.x, sq_nonneg v.y, sq_nonneg v.z]
    have hy : v.y ^ 2 = 0 := by nlinarith [sq_nonneg v.x, sq_nonneg v.y, sq_nonneg v.z]
    have hz : v.z ^ 2 = 0 := by nlinarith [sq_nonneg v.x, sq_nonneg v.y, sq_nonneg v.z]
    rw [Vec3.ext_iff]
    exact ⟨sq_eq_zero_iff.mp hx, sq_eq_zero_iff.mp hy, sq_eq_zero_iff.mp hz⟩
  · intro h; rw [h]; simp [dot]

theorem sub_eq_zero_iff {α : Type} [CommRing α] (a b : Vec3 α) :
    sub a b = (⟨0, 0, 0⟩ : Vec3 α) ↔ a = b := by
  simp [sub, Vec3.ext_iff, sub_eq_zero]

theorem smul_eq_zero_iff (k : ℝ) (v : Vec3 ℝ) :
    smul k v = (⟨0, 0, 0⟩ : Vec3 ℝ) ↔ k = 0 ∨ v = (⟨0, 0, 0⟩ : Vec3 ℝ) := by
  simp [smul, Vec3.ext_iff, mul_eq_zero]
  tauto

theorem normalized_of_zero {v : Vec3 ℝ} (h : dot v v = 0) : normalized v = v := by
  simp [normalized, h]

theorem normalized_dot_self {v : Vec3 ℝ} (h : dot v v ≠ 0) :
    dot (normalized v) (normalized v) = 1 := by
  have hpos : 0 < dot v v := lt_of_le_of_ne (dot_self_nonneg v) (Ne.symm h)
  rw [normalized, if_neg h, dot_smul_smul]
  rw [← Real.sqrt_mul_self (le_of_lt hpos)]
  have hs : Real.sqrt (dot v v) ≠ 0 := by
    intro h0
    rw [Real.sqrt_eq_zero (dot_self_nonneg v)] at h0
    exact h h0
  field_simp

theorem normalized_eq_smul {v : Vec3 ℝ} (h : dot v v ≠ 0) :
    normalized v = smul (Real.sqrt (dot v v))⁻¹ v := by
  rw [normalized, if_neg h]

theorem to_blender_sub {α : Type} [CommRing α] (a b : Vec3 α) :
    sub (to_blender a) (to_blender b) = to_blender (sub a b) := by
  simp [to_blender, sub, Vec3.ext_iff]; ring

theorem to_blender_cross {α : Type} [CommRing α] (a b : Vec3 α) :
    cross (to_blender a) (to_blender b) = to_blender (cross a b) := by
  simp only [to_blender, cross, Vec3.ext_iff]
  refine ⟨by ring, by ring, by ring⟩

theorem to_blender_eq_zero_iff {α : Type} [CommRing α] (v : Vec3 α) :
    to_blender v = (⟨0, 0, 0⟩ : Vec3 α) ↔ v = (⟨0, 0, 0⟩ : Vec3 α) := by
  simp [to_blender, Vec3.ext_iff, neg_eq_zero]
  tauto

/-- C1: for each single-axis source rotation (90°,0,0), (0,90°,0) and
(0,0,90°), applying the converted angle triple `(rx, -rz, ry)` in Blender
rotation order Z-then-X-then-Y to a converted vector gives exactly the same
result as applying the source YXZ rotation in source convention and then
converting with the axis map `(x, y, z) ↦ (x, -z, y)` — proved for every
vector, which subsumes the sampled basis vectors. -/
theorem rotation_mapping_single_axis :
    (∀ v : Vec3 ℝ,
        eulerZXY (applySceneTransform ⟨none, some ⟨90, 0, 0⟩, none⟩).rotationEuler
            (to_blender v)
          = to_blender (sourceRotationYXZ ⟨90, 0, 0⟩ v))
    ∧ (∀ v : Vec3 ℝ,
        eulerZXY (applySceneTransform ⟨none, some ⟨0, 90, 0⟩, none⟩).rotationEuler
            (to_blender v)
          = to_blender (sourceRotationYXZ ⟨0, 90, 0⟩ v))
    ∧ (∀ v : Vec3 ℝ,
        eulerZXY (applySceneTransform ⟨none, some ⟨0, 0, 90⟩, none⟩).rotationEuler
            (to_blender v)
          = to_blender (sourceRotationYXZ ⟨0, 0, 90⟩ v)) := by
  have h90 : radians 90 = Real.pi / 2 := by rw [radians]; ring
  have h0 : radians 0 = 0 := by rw [radians]; ring
  have hn90 : radians (-90) = -(Real.pi / 2) := by rw [radians]; ring
  refine ⟨fun v => ?_, fun v => ?_, fun v => ?_⟩ <;>
    · simp only [applySceneTransform, eulerZXY, sourceRotationYXZ, Option.getD_some,
        neg_zero, h90, h0, hn90, rotX, rotY, rotZ, to_blender,
        Real.cos_pi_div_two, Real.sin_pi_div_two, Real.cos_zero, Real.sin_zero,
        Real.cos_neg, Real.sin_neg, Vec3.ext_iff]
      refine ⟨by ring, by ring, by ring⟩

/-- C3 (code bug): `setup_camera` does not surface any configuration error on
a degenerate camera.  At `look_from = look_at = (0,0,0)`, `vup = (0,1,0)` the
forward, right and up vectors all silently evaluate to the zero vector
(mathutils `.normalized()` returns a zero vector instead of raising). -/
theorem setup_camera_degenerate_silent :
    cameraForward ⟨0, 0, 0⟩ ⟨0, 0, 0⟩ = (⟨0, 0, 0⟩ : Vec3 ℝ)
    ∧ cameraRight ⟨0, 0, 0⟩ ⟨0, 0, 0⟩ ⟨0, 1, 0⟩ = (⟨0, 0, 0⟩ : Vec3 ℝ)
    ∧ cameraUp ⟨0, 0, 0⟩ ⟨0, 0, 0⟩ ⟨0, 1, 0⟩ = (⟨0, 0, 0⟩ : Vec3 ℝ) := by
  have hf : cameraForward ⟨0, 0, 0⟩ ⟨0, 0, 0⟩ = (⟨0, 0, 0⟩ : Vec3 ℝ) := by
    have hsub : sub (to_blender (⟨0, 0, 0⟩ : Vec3 ℝ)) (to_blender ⟨0, 0, 0⟩)
        = (⟨0, 0, 0⟩ : Vec3 ℝ) := by
      simp [to_blender, sub, Vec3.ext_iff]
    rw [cameraForward, hsub, normalized_of_zero (by simp [dot])]
  have hr : cameraRight ⟨0, 0, 0⟩ ⟨0, 0, 0⟩ ⟨0, 1, 0⟩ = (⟨0, 0, 0⟩ : Vec3 ℝ) := by
    rw [cameraRight, hf]
    have hcr : cross (⟨0, 0, 0⟩ : Vec3 ℝ) (to_blender ⟨0, 1, 0⟩)
        = (⟨0, 0, 0⟩ : Vec3 ℝ) := by
      simp [cross, Vec3.ext_iff]
    rw [hcr, normalized_of_zero (by simp [dot])]
  refine ⟨hf, hr, ?_⟩
  rw [cameraUp, hf, hr]
  simp [cross, Vec3.ext_iff]

/-- C6: for a non-degenerate camera definition (`look_at` differs from
`look_from` and `vup` is not parallel to the look direction, expressed as a
nonzero cross product in source convention), the basis computed by
`setup_camera` satisfies `forward = normalize(look_at - look_from)`,
`right = normalize(cross(forward, vup))`, `up = cross(right, forward)`
(on the converted points); the three vectors are unit length and mutually
perpendicular; and the camera world matrix has columns
`(right, up, -forward)` with translation `look_from`. -/
theorem setup_camera_orthonormal (look_from look_at vup : Vec3 ℝ)
    (h1 : look_at ≠ look_from)
    (h2 : cross (sub look_at look_from) vup ≠ (⟨0, 0, 0⟩ : Vec3 ℝ)) :
    cameraForward look_from look_at
        = normalized (sub (to_blender look_at) (to_blender look_from))
    ∧ cameraRight look_from look_at vup
        = normalized (cross (cameraForward look_from look_at) (to_blender vup))
    ∧ cameraUp look_from look_at vup
        = cross (cameraRight look_from look_at vup) (cameraForward look_from look_at)
    ∧ dot (cameraRight look_from look_at vup) (cameraRight look_from look_at vup) = 1
    ∧ dot (cameraUp look_from look_at vup) (cameraUp look_from look_at vup) = 1
    ∧ dot (cameraForward look_from look_at) (cameraForward look_from look_at) = 1
    ∧ dot (cameraRight look_from look_at vup) (cameraUp look_from look_at vup) = 0
    ∧ dot (cameraRight look_from look_at vup) (cameraForward look_from look_at) = 0
    ∧ dot (cameraUp look_from look_at vup) (cameraForward look_from look_at) = 0
    ∧ setup_camera look_from look_at vup
        = !![(cameraRight look_from look_at vup).x, (cameraUp look_from look_at vup).x,
               -(cameraForward look_from look_at).x, (to_blender look_from).x;
             (cameraRight look_from look_at vup).y, (cameraUp look_from look_at vup).y,
               -(cameraForward look_from look_at).y, (to_blender look_from).y;
             (cameraRight look_from look_at vup).z, (cameraUp look_from look_at vup).z,
               -(cameraForward look_from look_at).z, (to_blender look_from).z;
             0, 0, 0, 1] := by
  have hd0 : sub (to_blender look_at) (to_blender look_from) ≠ (⟨0, 0, 0⟩ : Vec3 ℝ) := by
    rw [to_blender_sub, Ne, to_blender_eq_zero_iff, sub_eq_zero_iff]
    exact h1
  have hdd : dot (sub (to_blender look_at) (to_blender look_from))
      (sub (to_blender look_at) (to_blender look_from)) ≠ 0 := fun h =>
    hd0 ((dot_self_eq_zero_iff _).mp h)
  have hf1 : dot (cameraForward look_from look_at) (cameraForward look_from look_at) = 1 := by
    rw [cameraForward]
    exact normalized_dot_self hdd
  -- the unnormalized right vector is a nonzero multiple of the source cross product
  have hk0 : (Real.sqrt (dot (sub (to_blender look_at) (to_blender look_from))
      (sub (to_blender look_at) (to_blender look_from))))⁻¹ ≠ 0 := by
    apply inv_ne_zero
    rw [Ne, Real.sqrt_eq_zero (dot_self_nonneg _)]
    exact hdd
  have hfsm : cameraForward look_from look_at
      = smul (Real.sqrt (dot (sub (to_blender look_at) (to_blender look_from))
          (sub (to_blender look_at) (to_blender look_from))))⁻¹
          (sub (to_blender look_at) (to_blender look_from)) := by
    rw [cameraForward, normalized_eq_smul hdd]
  have hw : cross (cameraForward look_from look_at) (to_blender vup)
      = smul (Real.sqrt (dot (sub (to_blender look_at) (to_blender look_from))
          (sub (to_blender look_at) (to_blender look_from))))⁻¹
          (cross (sub (to_blender look_at) (to_blender look_from)) (to_blender vup)) := by
    rw [hfsm, cross_smul_left]
  have hcrne : cross (sub (to_blender look_at) (to_blender look_from)) (to_blender vup)
      ≠ (⟨0, 0, 0⟩ : Vec3 ℝ) := by
    rw [to_blender_sub, to_blender_cross, Ne, to_blender_eq_zero_iff]
    exact h2
  have hwne : cross (cameraForward look_from look_at) (to_blender vup)
      ≠ (⟨0, 0, 0⟩ : Vec3 ℝ) := by
    rw [hw, Ne, smul_eq_zero_iff]
    push_neg
    exact ⟨hk0, hcrne⟩
  have hww : dot (cross (cameraForward look_from look_at) (to_blender vup))
      (cross (cameraForward look_from look_at) (to_blender vup)) ≠ 0 := fun h =>
    hwne ((dot_self_eq_zero_iff _).mp h)
  have hr1 : dot (cameraRight look_from look_at vup) (cameraRight look_from look_at vup) = 1 := by
    rw [cameraRight]
    exact normalized_dot_self hww
  have hrf : dot (cameraRight look_from look_at vup) (cameraForward look_from look_at) = 0 := by
    rw [cameraRight, normalized_eq_smul hww, dot_smul_left, dot_cross_left, mul_zero]
  have hu1 : dot (cameraUp look_from look_at vup) (cameraUp look_from look_at vup) = 1 := by
    rw [cameraUp, dot_cross_self_lagrange, hr1, hf1, hrf]
    norm_num
  have hru : dot (cameraRight look_from look_at vup) (cameraUp look_from look_at vup) = 0 := by
    rw [cameraUp, dot_comm]
    exact dot_cross_left _ _
  have huf : dot (cameraUp look_from look_at vup) (cameraForward look_from look_at) = 0 := by
    rw [cameraUp]
    exact dot_cross_right _ _
  exact ⟨rfl, rfl, rfl, hr1, hu1, hf1, hru, hrf, huf, rfl⟩

/-- Witness for C6 at the concrete camera `look_from = (0,0,0)`,
`look_at = (0,0,-1)`, `vup = (0,1,0)`. -/
theorem setup_camera_orthonormal_witness :
    ((⟨0, 0, -1⟩ : Vec3 ℝ) ≠ ⟨0, 0, 0⟩
      ∧ cross (sub (⟨0, 0, -1⟩ : Vec3 ℝ) ⟨0, 0, 0⟩) ⟨0, 1, 0⟩ ≠ (⟨0, 0, 0⟩ : Vec3 ℝ))
    ∧ dot (cameraRight ⟨0, 0, 0⟩ ⟨0, 0, -1⟩ ⟨0, 1, 0⟩)
        (cameraRight ⟨0, 0, 0⟩ ⟨0, 0, -1⟩ ⟨0, 1, 0⟩) = 1
    ∧ dot (cameraUp ⟨0, 0, 0⟩ ⟨0, 0, -1⟩ ⟨0, 1, 0⟩)
        (cameraUp ⟨0, 0, 0⟩ ⟨0, 0, -1⟩ ⟨0, 1, 0⟩) = 1
    ∧ dot (cameraForward ⟨0, 0, 0⟩ ⟨0, 0, -1⟩) (cameraForward ⟨0, 0, 0⟩ ⟨0, 0, -1⟩) = 1
    ∧ dot (cameraRight ⟨0, 0, 0⟩ ⟨0, 0, -1⟩ ⟨0, 1, 0⟩)
        (cameraUp ⟨0, 0, 0⟩ ⟨0, 0, -1⟩ ⟨0, 1, 0⟩) = 0
    ∧ dot (cameraRight ⟨0, 0, 0⟩ ⟨0, 0, -1⟩ ⟨0, 1, 0⟩) (cameraForward ⟨0, 0, 0⟩ ⟨0, 0, -1⟩) = 0
    ∧ dot (cameraUp ⟨0, 0, 0⟩ ⟨0, 0, -1⟩ ⟨0, 1, 0⟩) (cameraForward ⟨0, 0, 0⟩ ⟨0, 0, -1⟩) = 0 := by
  have h1 : (⟨0, 0, -1⟩ : Vec3 ℝ) ≠ ⟨0, 0, 0⟩ := by norm_num [Vec3.ext_iff]
  have h2 : cross (sub (⟨0, 0, -1⟩ : Vec3 ℝ) ⟨0, 0, 0⟩) ⟨0, 1, 0⟩
      ≠ (⟨0, 0, 0⟩ : Vec3 ℝ) := by
    norm_num [cross, sub, Vec3.ext_iff]
  obtain ⟨-, -, -, hr1, hu1, hf1, hru, hrf, huf, -⟩ :=
    setup_camera_orthonormal ⟨0, 0, 0⟩ ⟨0, 0, -1⟩ ⟨0, 1, 0⟩ h1 h2
  exact ⟨⟨h1, h2⟩, hr1, hu1, hf1, hru, hrf, huf⟩

/-- C8 (code bug): malformed transforms are not rejected anywhere —
`add_obj` reads the transform block and applies it directly, with no
validation at parse time or later (the script defines no ConfigurationError
and contains no `raise`).  At the failing input `scale = (-1, 2, 3)` the
non-positive scale component is silently assigned to the object (with the
Y/Z swap), not rejected. -/
theorem transform_nonpositive_scale_applied :
    (applySceneTransform ⟨some ⟨-1, 2, 3⟩, none, none⟩).scale = (⟨-1, 3, 2⟩ : Vec3 ℝ) := by
  simp [applySceneTransform]

/- ---------------------------------------------------------------------------
Materials (`create_material`, convert.py lines 71-142), embedded over `ℚ`.
The Principled BSDF inputs the script assigns are modelled as `Option`
fields: `none` means the script never touched that input (it stays at the
host default).  The 3.x/4.x parameter-name fallbacks collapse to a single
logical field.
--------------------------------------------------------------------------- -/

/-- A Skewer material definition (a JSON object; every field may be absent). -/
structure MaterialDef where
  type : Option String
  albedo : Option (Vec3 ℚ)
  roughness : Option ℚ
  ior : Option ℚ
  emission : Option (Vec3 ℚ)
deriving DecidableEq, Repr

/-- The shading parameters `create_material` assigns on the Principled BSDF
node.  Alpha components are always 1.0 in the script and are omitted. -/
structure ShadingParams where
  baseColor : Option (Vec3 ℚ)
  metallic : Option ℚ
  roughness : Option ℚ
  specular : Option ℚ
  ior : Option ℚ
  transmission : Option ℚ
  emissionColor : Option (Vec3 ℚ)
  emissionStrength : Option ℚ
  blendHashed : Bool
deriving DecidableEq, Repr

/-- A fresh material: no BSDF input assigned yet, opaque blending. -/
def emptyShading : ShadingParams :=
  ⟨none, none, none, none, none, none, none, none, false⟩

/-- Python `max(emission)` on a 3-element list. -/
def maxComp (v : Vec3 ℚ) : ℚ := max (max v.x v.y) v.z

/-- convert.py lines 71-142 (`create_material`): kind dispatch on
`mat_def.get("type", "lambertian")` via if/elif (an unmatched kind falls
through silently), then the emission block.  Python's `if emission:` is
false only when the field is absent (`None`); a present all-zero vector is
a truthy non-empty list and is still processed. -/
def create_material (m : MaterialDef) : ShadingParams :=
  let albedo := m.albedo.getD ⟨1, 1, 1⟩
  let mtype := m.type.getD "lambertian"
  let base : ShadingParams :=
    if mtype = "lambertian" then
      { emptyShading with
          baseColor := some albedo
          roughness := some 1
          metallic := some 0
          specular := some 0 }
    else if mtype = "metal" then
      { emptyShading with
          baseColor := some albedo
          metallic := some 1
          roughness := some (m.roughness.getD 0) }
    else if mtype = "dielectric" then
      { emptyShading with
          baseColor := some albedo
          ior := some (m.ior.getD (3 / 2))
          roughness := some 0
          transmission := some 1
          blendHashed := true }
    else emptyShading
  match m.emission with
  | none => base
  | some em =>
      let strength := maxComp em
      let color := if 0 < strength then
          (⟨em.x / strength, em.y / strength, em.z / strength⟩ : Vec3 ℚ)
        else em
      { base with emissionColor := some color, emissionStrength := some strength }

/-- C4 counterexample: for a present but all-zero emission vector the claim
"no emission parameters are emitted at all" fails — `if emission:` in Python
is true for a non-empty list, so `create_material` still assigns
`Emission Strength = 0` and `Emission Color = (0,0,0)`. -/
theorem emission_zero_counterexample :
    (create_material ⟨some "lambertian", none, none, none, some ⟨0, 0, 0⟩⟩).emissionStrength
      = some 0
    ∧ (create_material ⟨some "lambertian", none, none, none, some ⟨0, 0, 0⟩⟩).emissionColor
      = some ⟨0, 0, 0⟩ := by
  decide

/-- C4 (amended): if the emission field is absent no emission parameters are
emitted; if it is present, the emitted strength is `max` of its components,
and the emitted color is the componentwise quotient by the strength when the
strength is positive, and the raw emission vector unchanged otherwise (in
particular an all-zero emission still emits strength 0). -/
theorem create_material_emission (m : MaterialDef) :
    (m.emission = none →
      (create_material m).emissionStrength = none
      ∧ (create_material m).emissionColor = none)
    ∧ (∀ em, m.emission = some em → 0 < maxComp em →
      (create_material m).emissionStrength = some (maxComp em)
      ∧ (create_material m).emissionColor
          = some ⟨em.x / maxComp em, em.y / maxComp em, em.z / maxComp em⟩)
    ∧ (∀ em, m.emission = some em → maxComp em ≤ 0 →
      (create_material m).emissionStrength = some (maxComp em)
      ∧ (create_material m).emissionColor = some em) := by
  refine ⟨fun h => ?_, fun em h hpos => ?_, fun em h hneg => ?_⟩
  · simp only [create_material, h]
    split_ifs <;> simp [emptyShading]
  · simp only [create_material, h]
    rw [if_pos hpos]
    simp
  · simp only [create_material, h]
    rw [if_neg (not_lt.mpr hneg)]
    simp

/-- Witness for C4 at the spec's example `emission = (2, 4, 8)`:
strength 8, color `(1/4, 1/2, 1)`. -/
theorem create_material_emission_witness :
    (0 < maxComp ⟨2, 4, 8⟩)
    ∧ (create_material ⟨some "lambertian", none, none, none, some ⟨2, 4, 8⟩⟩).emissionStrength
        = some 8
    ∧ (create_material ⟨some "lambertian", none, none, none, some ⟨2, 4, 8⟩⟩).emissionColor
        = some ⟨1 / 4, 1 / 2, 1⟩ := by
  obtain ⟨hs, hc⟩ := (create_material_emission
      ⟨some "lambertian", none, none, none, some ⟨2, 4, 8⟩⟩).2.1 ⟨2, 4, 8⟩ rfl (by decide)
  have hm : maxComp ⟨2, 4, 8⟩ = 8 := by decide
  refine ⟨by decide, ?_, ?_⟩
  · rw [hs, hm]
  · rw [hc, hm]
    norm_num [Vec3.ext_iff]

/-- C7: the material kind mapping — lambertian yields metallic 0,
roughness 1 and specular 0; metal yields metallic 1 and, when the roughness
field is absent, roughness 0; dielectric yields roughness 0, transmission 1,
IOR defaulting to 1.5, and the alpha-hashed blend flag set. -/
theorem create_material_kinds (m : MaterialDef) :
    (m.type.getD "lambertian" = "lambertian" →
      (create_material m).metallic = some 0
      ∧ (create_material m).roughness = some 1
      ∧ (create_material m).specular = some 0)
    ∧ (m.type.getD "lambertian" = "metal" →
      (create_material m).metallic = some 1
      ∧ (m.roughness = none → (create_material m).roughness = some 0))
    ∧ (m.type.getD "lambertian" = "dielectric" →
      (create_material m).roughness = some 0
      ∧ (create_material m).transmission = some 1
      ∧ (create_material m).ior = some (m.ior.getD (3 / 2))
      ∧ (create_material m).blendHashed = true) := by
  refine ⟨fun h => ?_, fun h => ?_, fun h => ?_⟩
  · simp only [create_material, h]
    cases hm : m.emission <;> simp [emptyShading]
  · simp only [create_material, h]
    constructor
    · cases hm : m.emission <;> simp [emptyShading]
    · intro hr
      cases hm : m.emission <;> simp [emptyShading, hr]
  · simp only [create_material, h]
    cases hm : m.emission <;> simp [emptyShading]

/-- Witness for C7 at one concrete material of each kind. -/
theorem create_material_kinds_witness :
    ((some "lambertian" : Option String).getD "lambertian" = "lambertian"
      ∧ (create_material ⟨some "lambertian", some ⟨4 / 5, 4 / 5, 4 / 5⟩, none, none, none⟩).metallic = some 0
      ∧ (create_material ⟨some "lambertian", some ⟨4 / 5, 4 / 5, 4 / 5⟩, none, none, none⟩).roughness = some 1
      ∧ (create_material ⟨some "lambertian", some ⟨4 / 5, 4 / 5, 4 / 5⟩, none, none, none⟩).specular = some 0)
    ∧ ((some "metal" : Option String).getD "lambertian" = "metal"
      ∧ (create_material ⟨some "metal", none, none, none, none⟩).metallic = some 1
      ∧ (create_material ⟨some "metal", none, none, none, none⟩).roughness = some 0)
    ∧ ((some "dielectric" : Option String).getD "lambertian" = "dielectric"
      ∧ (create_material ⟨some "dielectric", none, none, none, none⟩).roughness = some 0
      ∧ (create_material ⟨some "dielectric", none, none, none, none⟩).transmission = some 1
      ∧ (create_material ⟨some "dielectric", none, none, none, none⟩).ior = some (3 / 2)
      ∧ (create_material ⟨some "dielectric", none, none, none, none⟩).blendHashed = true) := by
  obtain ⟨hl, -, -⟩ := create_material_kinds
    ⟨some "lambertian", some ⟨4 / 5, 4 / 5, 4 / 5⟩, none, none, none⟩
  obtain ⟨-, hm, -⟩ := create_material_kinds ⟨some "metal", none, none, none, none⟩
  obtain ⟨-, -, hd⟩ := create_material_kinds ⟨some "dielectric", none, none, none, none⟩
  obtain ⟨hl1, hl2, hl3⟩ := hl rfl
  obtain ⟨hm1, hm2⟩ := hm rfl
  obtain ⟨hd1, hd2, hd3, hd4⟩ := hd rfl
  exact ⟨⟨rfl, hl1, hl2, hl3⟩, ⟨rfl, hm1, hm2 rfl⟩, ⟨rfl, hd1, hd2, hd3, hd4⟩⟩

/-- C10: a material definition with the type field absent is treated exactly
as a lambertian one; a type string outside the three known kinds raises no
error (the embedded function is total, mirroring the if/elif fall-through in
convert.py, which also prints no warning), sets none of the kind-specific
BSDF inputs, and applies only the emission fields when emission is present. -/
theorem create_material_unknown_type (m : MaterialDef) :
    (m.type = none →
      create_material m
        = create_material ⟨some "lambertian", m.albedo, m.roughness, m.ior, m.emission⟩)
    ∧ (∀ s, m.type = some s →
        s ≠ "lambertian" → s ≠ "metal" → s ≠ "dielectric" →
      (create_material m).baseColor = none
      ∧ (create_material m).metallic = none
      ∧ (create_material m).roughness = none
      ∧ (create_material m).specular = none
      ∧ (create_material m).ior = none
      ∧ (create_material m).transmission = none
      ∧ (create_material m).blendHashed = false
      ∧ (m.emission = none →
          (create_material m).emissionColor = none
          ∧ (create_material m).emissionStrength = none)
      ∧ (∀ em, m.emission = some em →
          (create_material m).emissionStrength = some (maxComp em))) := by
  constructor
  · intro h
    obtain ⟨t, a, r, i, e⟩ := m
    simp only at h
    subst h
    rfl
  · intro s hs h1 h2 h3
    simp only [create_material, hs, Option.getD_some]
    rw [if_neg h1, if_neg h2, if_neg h3]
    cases hm : m.emission <;> simp [emptyShading]

/-- Witness for C10: an absent type field behaves as lambertian, and the
unknown kind "glass" sets no kind-specific parameter while its emission is
still applied. -/
theorem create_material_unknown_type_witness :
    ((⟨none, some ⟨1, 0, 0⟩, none, none, none⟩ : MaterialDef).type = none
      ∧ create_material ⟨none, some ⟨1, 0, 0⟩, none, none, none⟩
          = create_material ⟨some "lambertian", some ⟨1, 0, 0⟩, none, none, none⟩)
    ∧ ((⟨some "glass", some ⟨1, 0, 0⟩, some (1 / 2), some 2, some ⟨1, 1, 0⟩⟩ : MaterialDef).type
          = some "glass"
      ∧ (create_material ⟨some "glass", some ⟨1, 0, 0⟩, some (1 / 2), some 2, some ⟨1, 1, 0⟩⟩).baseColor = none
      ∧ (create_material ⟨some "glass", some ⟨1, 0, 0⟩, some (1 / 2), some 2, some ⟨1, 1, 0⟩⟩).metallic = none
      ∧ (create_material ⟨some "glass", some ⟨1, 0, 0⟩, some (1 / 2), some 2, some ⟨1, 1, 0⟩⟩).roughness = none
      ∧ (create_material ⟨some "glass", some ⟨1, 0, 0⟩, some (1 / 2), some 2, some ⟨1, 1, 0⟩⟩).transmission = none
      ∧ (create_material ⟨some "glass", some ⟨1, 0, 0⟩, some (1 / 2), some 2, some ⟨1, 1, 0⟩⟩).blendHashed = false
      ∧ (create_material ⟨some "glass", some ⟨1, 0, 0⟩, some (1 / 2), some 2, some ⟨1, 1, 0⟩⟩).emissionStrength
          = some (maxComp ⟨1, 1, 0⟩)) := by
  obtain ⟨hnone, -⟩ :=
    create_material_unknown_type ⟨none, some ⟨1, 0, 0⟩, none, none, none⟩
  obtain ⟨-, hunk⟩ :=
    create_material_unknown_type ⟨some "glass", some ⟨1, 0, 0⟩, some (1 / 2), some 2, some ⟨1, 1, 0⟩⟩
  obtain ⟨hb, hmt, hr, -, -, htr, hbl, -, hem⟩ :=
    hunk "glass" rfl (by decide) (by decide) (by decide)
  exact ⟨⟨rfl, hnone rfl⟩, ⟨rfl, hb, hmt, hr, htr, hbl, hem ⟨1, 1, 0⟩ rfl⟩⟩

/- ---------------------------------------------------------------------------
auto_fit normalization (`add_obj`, convert.py lines 270-292), embedded over
`ℚ`.  An imported object carries the loc/rot/scale decomposition of its
world matrix (`matrix_world = T(location) * R(rotRows) * S(scale)`) and its
local `bound_box` corners.
--------------------------------------------------------------------------- -/

/-- An object as produced by the OBJ import, with the fields `add_obj`
reads and writes. -/
structure BlenderObject where
  location : Vec3 ℚ
  rotRows : Vec3 ℚ × Vec3 ℚ × Vec3 ℚ
  scale : Vec3 ℚ
  bound_box : List (Vec3 ℚ)
deriving DecidableEq, Repr

/-- Apply a 3x3 matrix given by rows. -/
def applyRows (r : Vec3 ℚ × Vec3 ℚ × Vec3 ℚ) (v : Vec3 ℚ) : Vec3 ℚ :=
  ⟨dot r.1 v, dot r.2.1 v, dot r.2.2 v⟩

/-- `o.matrix_world @ p` (convert.py line 276): rotation applied to the
componentwise-scaled point, plus the location. -/
def matrix_world (o : BlenderObject) (p : Vec3 ℚ) : Vec3 ℚ :=
  add (applyRows o.rotRows (hadamard o.scale p)) o.location

/-- All world-space bounding corners, convert.py lines 274-276. -/
def worldCorners (objs : List BlenderObject) : List (Vec3 ℚ) :=
  objs.flatMap (fun o => o.bound_box.map (matrix_world o))

/-- Componentwise minimum, convert.py line 277. -/
def minCombine (a b : Vec3 ℚ) : Vec3 ℚ := ⟨min a.x b.x, min a.y b.y, min a.z b.z⟩

/-- Componentwise maximum, convert.py line 278. -/
def maxCombine (a b : Vec3 ℚ) : Vec3 ℚ := ⟨max a.x b.x, max a.y b.y, max a.z b.z⟩

/-- The accumulated `min_c` over all world corners.  The code folds from
`+inf`; over `ℚ` this is the same fold started from the first corner (the
empty case never reaches the normalization branch, see `auto_fit`). -/
def lowerCorner (vs : List (Vec3 ℚ)) : Vec3 ℚ :=
  match vs with
  | [] => ⟨0, 0, 0⟩
  | v :: rest => rest.foldl minCombine v

/-- The accumulated `max_c` over all world corners. -/
def upperCorner (vs : List (Vec3 ℚ)) : Vec3 ℚ :=
  match vs with
  | [] => ⟨0, 0, 0⟩
  | v :: rest => rest.foldl maxCombine v

/-- `max_dim = max(extent)` with `extent = max_c - min_c`
(convert.py lines 279-280). -/
def maxDimOf (objs : List BlenderObject) : ℚ :=
  maxComp (sub (upperCorner (worldCorners objs)) (lowerCorner (worldCorners objs)))

/-- `centroid = (min_c + max_c) / 2` (convert.py line 283). -/
def centroidOf (objs : List BlenderObject) : Vec3 ℚ :=
  smul (1 / 2) (add (lowerCorner (worldCorners objs)) (upperCorner (worldCorners objs)))

/-- The auto_fit normalization loop (convert.py lines 281-286): when
`max_dim > 0`, shift each location by `-centroid * norm_scale` and multiply
each scale by `norm_scale = 2 / max_dim`; otherwise leave every object
untouched (in the code the subsequent `transform_apply` bake does not move
world-space geometry). -/
def auto_fit (objs : List BlenderObject) : List BlenderObject :=
  let max_dim := maxDimOf objs
  if 0 < max_dim then
    let norm_scale := 2 / max_dim
    let centroid := centroidOf objs
    objs.map (fun o =>
      { o with
          location := sub o.location (smul norm_scale centroid)
          scale := smul norm_scale o.scale })
  else objs

theorem min_affine {k t a b : ℚ} (hk : 0 ≤ k) :
    min (k * a - t) (k * b - t) = k * min a b - t := by
  rcases le_total a b with h | h
  · rw [min_eq_left h, min_eq_left (by nlinarith)]
  · rw [min_eq_right h, min_eq_right (by nlinarith)]

theorem max_affine {k t a b : ℚ} (hk : 0 ≤ k) :
    max (k * a - t) (k * b - t) = k * max a b - t := by
  rcases le_total a b with h | h
  · rw [max_eq_right h, max_eq_right (by nlinarith)]
  · rw [max_eq_left h, max_eq_left (by nlinarith)]

theorem max_smul_scalar {k a b : ℚ} (hk : 0 ≤ k) :
    max (k * a) (k * b) = k * max a b := by
  rcases le_total a b with h | h
  · rw [max_eq_right h, max_eq_right (by nlinarith)]
  · rw [max_eq_left h, max_eq_left (by nlinarith)]

theorem minCombine_affine {k : ℚ} (t : Vec3 ℚ) (hk : 0 ≤ k) (a b : Vec3 ℚ) :
    minCombine (sub (smul k a) t) (sub (smul k b) t)
      = sub (smul k (minCombine a b)) t := by
  simp only [minCombine, sub, smul, Vec3.ext_iff]
  exact ⟨min_affine hk, min_affine hk, min_affine hk⟩

theorem maxCombine_affine {k : ℚ} (t : Vec3 ℚ) (hk : 0 ≤ k) (a b : Vec3 ℚ) :
    maxCombine (sub (smul k a) t) (sub (smul k b) t)
      = sub (smul k (maxCombine a b)) t := by
  simp only [maxCombine, sub, smul, Vec3.ext_iff]
  exact ⟨max_affine hk, max_affine hk, max_affine hk⟩

theorem foldl_minCombine_affine {k : ℚ} (t : Vec3 ℚ) (hk : 0 ≤ k) :
    ∀ (l : List (Vec3 ℚ)) (acc : Vec3 ℚ),
      (l.map (fun w => sub (smul k w) t)).foldl minCombine (sub (smul k acc) t)
        = sub (smul k (l.foldl minCombine acc)) t := by
  intro l
  induction l with
  | nil => intro acc; rfl
  | cons v rest ih =>
      intro acc
      rw [List.map_cons, List.foldl_cons, List.foldl_cons, minCombine_affine t hk,
        ih (minCombine acc v)]

theorem foldl_maxCombine_affine {k : ℚ} (t : Vec3 ℚ) (hk : 0 ≤ k) :
    ∀ (l : List (Vec3 ℚ)) (acc : Vec3 ℚ),
      (l.map (fun w => sub (smul k w) t)).foldl maxCombine (sub (smul k acc) t)
        = sub (smul k (l.foldl maxCombine acc)) t := by
  intro l
  induction l with
  | nil => intro acc; rfl
  | cons v rest ih =>
      intro acc
      rw [List.map_cons, List.foldl_cons, List.foldl_cons, maxCombine_affine t hk,
        ih (maxCombine acc v)]

theorem lowerCorner_map_affine {k : ℚ} (t : Vec3 ℚ) (hk : 0 ≤ k)
    {l : List (Vec3 ℚ)} (hne : l ≠ []) :
    lowerCorner (l.map (fun w => sub (smul k w) t)) = sub (smul k (lowerCorner l)) t := by
  cases l with
  | nil => exact absurd rfl hne
  | cons v rest =>
      rw [List.map_cons]
      show (rest.map (fun w => sub (smul k w) t)).foldl minCombine (sub (smul k v) t)
        = sub (smul k (rest.foldl minCombine v)) t
      exact foldl_minCombine_affine t hk rest v

theorem upperCorner_map_affine {k : ℚ} (t : Vec3 ℚ) (hk : 0 ≤ k)
    {l : List (Vec3 ℚ)} (hne : l ≠ []) :
    upperCorner (l.map (fun w => sub (smul k w) t)) = sub (smul k (upperCorner l)) t := by
  cases l with
  | nil => exact absurd rfl hne
  | cons v rest =>
      rw [List.map_cons]
      show (rest.map (fun w => sub (smul k w) t)).foldl maxCombine (sub (smul k v) t)
        = sub (smul k (rest.foldl maxCombine v)) t
      exact foldl_maxCombine_affine t hk rest v

/-- Unfolding lemma for `worldCorners` on a cons. -/
theorem worldCorners_cons (o : BlenderObject) (rest : List BlenderObject) :
    worldCorners (o :: rest) = o.bound_box.map (matrix_world o) ++ worldCorners rest := rfl

/-- For an object located at the origin, the auto_fit update scales and
shifts every world-space point affinely. -/
theorem matrix_world_update (k : ℚ) (c : Vec3 ℚ) (o : BlenderObject)
    (hloc : o.location = (⟨0, 0, 0⟩ : Vec3 ℚ)) (p : Vec3 ℚ) :
    matrix_world
        { o with location := sub o.location (smul k c), scale := smul k o.scale } p
      = sub (smul k (matrix_world o p)) (smul k c) := by
  simp only [matrix_world, hloc, applyRows, hadamard, smul, sub, add, dot, Vec3.ext_iff]
  refine ⟨by ring, by ring, by ring⟩

theorem worldCorners_map_update (k : ℚ) (c : Vec3 ℚ) :
    ∀ (objs : List BlenderObject),
      (∀ o ∈ objs, o.location = (⟨0, 0, 0⟩ : Vec3 ℚ)) →
      worldCorners (objs.map (fun o =>
          { o with
              location := sub o.location (smul k c)
              scale := smul k o.scale }))
        = (worldCorners objs).map (fun w => sub (smul k w) (smul k c)) := by
  intro objs
  induction objs with
  | nil => intro _; rfl
  | cons o rest ih =>
      intro hloc
      rw [List.map_cons, worldCorners_cons, worldCorners_cons, List.map_append,
        List.map_map, ih (fun o2 ho => hloc o2 (List.mem_cons_of_mem _ ho))]
      congr 1
      apply List.map_congr_left
      intro p _
      simp only [Function.comp_apply]
      exact matrix_world_update k c o (hloc o (List.mem_cons_self _ _)) p

/-- C5 (amended): for objects whose location is the origin (the state the
OBJ importer leaves them in), a positive largest extent is rescaled by
`2 / max_dim` so the post-normalization largest-axis span is exactly 2 and
the bounding-box centroid lands on the origin; a non-positive largest
extent skips normalization entirely and the objects are unchanged (no
division by zero is performed). -/
theorem auto_fit_normalizes (objs : List BlenderObject)
    (hne : worldCorners objs ≠ [])
    (hloc : ∀ o ∈ objs, o.location = (⟨0, 0, 0⟩ : Vec3 ℚ)) :
    (0 < maxDimOf objs →
      maxDimOf (auto_fit objs) = 2
      ∧ centroidOf (auto_fit objs) = ⟨0, 0, 0⟩)
    ∧ (maxDimOf objs ≤ 0 → auto_fit objs = objs) := by
  constructor
  · intro hpos
    have hk : (0 : ℚ) ≤ 2 / maxDimOf objs := le_of_lt (div_pos two_pos hpos)
    have hfit : auto_fit objs = objs.map (fun o =>
        { o with
            location := sub o.location
              (smul (2 / maxDimOf objs) (centroidOf objs))
            scale := smul (2 / maxDimOf objs) o.scale }) := by
      simp only [auto_fit]
      rw [if_pos hpos]
    have hwc : worldCorners (auto_fit objs)
        = (worldCorners objs).map (fun w =>
            sub (smul (2 / maxDimOf objs) w)
              (smul (2 / maxDimOf objs) (centroidOf objs))) := by
      rw [hfit]
      exact worldCorners_map_update _ _ objs hloc
    have hlow : lowerCorner (worldCorners (auto_fit objs))
        = sub (smul (2 / maxDimOf objs) (lowerCorner (worldCorners objs)))
            (smul (2 / maxDimOf objs) (centroidOf objs)) := by
      rw [hwc]
      exact lowerCorner_map_affine _ hk hne
    have hup : upperCorner (worldCorners (auto_fit objs))
        = sub (smul (2 / maxDimOf objs) (upperCorner (worldCorners objs)))
            (smul (2 / maxDimOf objs) (centroidOf objs)) := by
      rw [hwc]
      exact upperCorner_map_affine _ hk hne
    have hsub : ∀ (a b t : Vec3 ℚ) (m : ℚ),
        sub (sub (smul m a) t) (sub (smul m b) t) = smul m (sub a b) := by
      intro a b t m
      simp only [sub, smul, Vec3.ext_iff]
      refine ⟨by ring, by ring, by ring⟩
    have hmc : ∀ (m : ℚ) (v : Vec3 ℚ), 0 ≤ m → maxComp (smul m v) = m * maxComp v := by
      intro m v hm
      simp only [maxComp, smul]
      rw [max_smul_scalar hm, max_smul_scalar hm]
    constructor
    · rw [maxDimOf, hup, hlow, hsub, hmc _ _ hk]
      rw [show maxComp (sub (upperCorner (worldCorners objs))
          (lowerCorner (worldCorners objs))) = maxDimOf objs from rfl]
      exact div_mul_cancel₀ 2 (ne_of_gt hpos)
    · rw [centroidOf, hup, hlow, centroidOf]
      simp only [sub, add, smul, Vec3.ext_iff]
      refine ⟨by ring, by ring, by ring⟩
  · intro hle
    simp only [auto_fit]
    rw [if_neg (not_lt.mpr hle)]

/-- Local bounding corners of a `[-2,2]` cube. -/
def cubeCorners : List (Vec3 ℚ) :=
  [⟨-2, -2, -2⟩, ⟨-2, -2, 2⟩, ⟨-2, 2, -2⟩, ⟨-2, 2, 2⟩,
   ⟨2, -2, -2⟩, ⟨2, -2, 2⟩, ⟨2, 2, -2⟩, ⟨2, 2, 2⟩]

/-- A single imported object located away from the origin at `(10,0,0)`,
identity rotation, unit scale. -/
def offAxisObject : BlenderObject :=
  ⟨⟨10, 0, 0⟩, (⟨1, 0, 0⟩, ⟨0, 1, 0⟩, ⟨0, 0, 1⟩), ⟨1, 1, 1⟩, cubeCorners⟩

/-- Local bounding corners spanning `[-3,3]` on X (the spec's example). -/
def spanCorners : List (Vec3 ℚ) :=
  [⟨-3, -1, -1⟩, ⟨-3, -1, 1⟩, ⟨-3, 1, -1⟩, ⟨-3, 1, 1⟩,
   ⟨3, -1, -1⟩, ⟨3, -1, 1⟩, ⟨3, 1, -1⟩, ⟨3, 1, 1⟩]

/-- A single imported object at the origin with the `[-3,3]` span. -/
def originObject : BlenderObject :=
  ⟨⟨0, 0, 0⟩, (⟨1, 0, 0⟩, ⟨0, 1, 0⟩, ⟨0, 0, 1⟩), ⟨1, 1, 1⟩, spanCorners⟩

/-- C5 counterexample: for an imported object whose location is `(10,0,0)`
(combined world bounding box `[8,12] x [-2,2] x [-2,2]`, largest extent 4),
auto_fit leaves the bounding-box centroid at `(5,0,0)`, not at the origin:
`location -= centroid * norm_scale` misses the `(1 - norm_scale) * location`
term, so the claim fails as stated for general object locations. -/
theorem auto_fit_centroid_counterexample :
    worldCorners [offAxisObject] ≠ []
    ∧ 0 < maxDimOf [offAxisObject]
    ∧ centroidOf (auto_fit [offAxisObject]) = ⟨5, 0, 0⟩
    ∧ centroidOf (auto_fit [offAxisObject]) ≠ ⟨0, 0, 0⟩ := by
  have hc : centroidOf (auto_fit [offAxisObject]) = ⟨5, 0, 0⟩ := by
    norm_num [centroidOf, auto_fit, maxDimOf, worldCorners, offAxisObject, cubeCorners,
      matrix_world, applyRows, hadamard, dot, add, sub, smul, lowerCorner, upperCorner,
      minCombine, maxCombine, maxComp, List.flatMap, min_def, max_def, Vec3.ext_iff]
  refine ⟨by decide, ?_, hc, ?_⟩
  · norm_num [maxDimOf, worldCorners, offAxisObject, cubeCorners, matrix_world,
      applyRows, hadamard, dot, add, sub, smul, lowerCorner, upperCorner,
      minCombine, maxCombine, maxComp, List.flatMap, min_def, max_def]
  · rw [hc]
    norm_num [Vec3.ext_iff]

/-- Witness for C5 at one origin-located object spanning `[-3,3]` on its
largest axis: the post-normalization span is 2 and the centroid is the
origin. -/
theorem auto_fit_normalizes_witness :
    (worldCorners [originObject] ≠ []
      ∧ (∀ o ∈ [originObject], o.location = (⟨0, 0, 0⟩ : Vec3 ℚ))
      ∧ 0 < maxDimOf [originObject])
    ∧ maxDimOf (auto_fit [originObject]) = 2
    ∧ centroidOf (auto_fit [originObject]) = ⟨0, 0, 0⟩ := by
  have hne : worldCorners [originObject] ≠ [] := by decide
  have hloc : ∀ o ∈ [originObject], o.location = (⟨0, 0, 0⟩ : Vec3 ℚ) := by
    intro o ho
    simp only [List.mem_singleton] at ho
    rw [ho]
    rfl
  have hpos : 0 < maxDimOf [originObject] := by
    norm_num [maxDimOf, worldCorners, originObject, spanCorners, matrix_world,
      applyRows, hadamard, dot, add, sub, smul, lowerCorner, upperCorner,
      minCombine, maxCombine, maxComp, List.flatMap, min_def, max_def]
  obtain ⟨h1, h2⟩ := (auto_fit_normalizes [originObject] hne hloc).1 hpos
  exact ⟨⟨hne, hloc, hpos⟩, h1, h2⟩

/- ---------------------------------------------------------------------------
Object dispatch (`main`, convert.py lines 345-354).  The stateful `bpy`
calls of `add_sphere` / `add_quad` / `add_obj` are modelled as the
instruction each branch issues; the `else` branch issues a warning.
--------------------------------------------------------------------------- -/

/-- An entry of the scene's objects list (a JSON object; the payload fields
each branch reads). -/
structure ObjectDef where
  type : Option String
  center : Vec3 ℚ
  radius : ℚ
  vertices : List (Vec3 ℚ)
  file : String
  material : String
deriving DecidableEq, Repr

/-- What the dispatch loop does for one object: the `bpy` call made for a
known type, or the printed warning for an unknown one. -/
inductive Instruction where
  | sphere (center : Vec3 ℚ) (radius : ℚ) (material : String)
  | quad (idx : ℕ) (vertices : List (Vec3 ℚ)) (material : String)
  | importAsset (file : String) (material : String)
  | warnUnknown (idx : ℕ) (type : Option String)
deriving DecidableEq, Repr

/-- The type strings handled by the if/elif chain of `main`. -/
def knownTypes : List (Option String) := [some "sphere", some "quad", some "obj"]

/-- One iteration of the loop in `main`: dispatch `obj_def.get("type")`
through the if/elif chain; an unmatched type produces a warning naming the
object index and is skipped. -/
def dispatchObject (i : ℕ) (o : ObjectDef) : Instruction :=
  if o.type = some "sphere" then .sphere (to_blender o.center) o.radius o.material
  else if o.type = some "quad" then .quad i (o.vertices.map to_blender) o.material
  else if o.type = some "obj" then .importAsset o.file o.material
  else .warnUnknown i o.type

/-- The whole loop `for i, obj_def in enumerate(data.get("objects", []))`:
a total function — no object aborts the conversion. -/
def convertObjects (objs : List ObjectDef) : List Instruction :=
  objs.enum.map (fun p => dispatchObject p.1 p.2)

/-- Whether an instruction is a skip-with-warning rather than produced
geometry. -/
def isWarning : Instruction → Bool
  | .warnUnknown _ _ => true
  | _ => false

/-- Each output position depends only on the object at the same input
position. -/
theorem convertObjects_getElem (objs : List ObjectDef) (j : ℕ) :
    (convertObjects objs)[j]? = (objs[j]?).map (fun o => dispatchObject j o) := by
  rw [convertObjects, List.getElem?_map, List.getElem?_enum]
  cases objs[j]? <;> rfl

/-- C9: an unknown object type does not abort the conversion — the loop is
total, the unknown entry at index `i` yields exactly a warning naming that
index, every position of the output is the dispatch of the same input
position (so all other objects are still produced, in input order), and no
known-typed object ever turns into a warning. -/
theorem convertObjects_skips_unknown (objs : List ObjectDef) (i : ℕ) (u : ObjectDef)
    (hu : objs[i]? = some u) (hunk : u.type ∉ knownTypes) :
    (convertObjects objs).length = objs.length
    ∧ (convertObjects objs)[i]? = some (.warnUnknown i u.type)
    ∧ (∀ j, (convertObjects objs)[j]? = (objs[j]?).map (fun o => dispatchObject j o))
    ∧ (∀ j o, objs[j]? = some o → o.type ∈ knownTypes →
        isWarning (dispatchObject j o) = false) := by
  simp only [knownTypes, List.mem_cons, List.not_mem_nil, or_false, not_or] at hunk
  obtain ⟨h1, h2, h3⟩ := hunk
  refine ⟨?_, ?_, fun j => convertObjects_getElem objs j, fun j o _ ho => ?_⟩
  · rw [convertObjects, List.length_map, List.enum_length]
  · rw [convertObjects_getElem, hu]
    simp only [Option.map_some']
    rw [dispatchObject, if_neg h1, if_neg h2, if_neg h3]
  · simp only [knownTypes, List.mem_cons, List.not_mem_nil, or_false] at ho
    rcases ho with h | h | h <;> simp [dispatchObject, h, isWarning]

/-- The spec's example of an unknown object type. -/
def unknownDef : ObjectDef :=
  ⟨some "unsupported_primitive", ⟨0, 0, 0⟩, 0, [], "", "white"⟩

/-- A scene objects list with a sphere, an unsupported primitive and a
quad. -/
def demoObjs : List ObjectDef :=
  [⟨some "sphere", ⟨0, 1, 0⟩, 1, [], "", "white"⟩,
   unknownDef,
   ⟨some "quad", ⟨0, 0, 0⟩, 0, [⟨0, 0, 0⟩, ⟨1, 0, 0⟩, ⟨1, 1, 0⟩, ⟨0, 1, 0⟩], "", "white"⟩]

/-- Witness for C9 on the three-object list. -/
theorem convertObjects_skips_unknown_witness :
    (demoObjs[1]? = some unknownDef ∧ unknownDef.type ∉ knownTypes)
    ∧ ((convertObjects demoObjs).length = demoObjs.length
      ∧ (convertObjects demoObjs)[1]? = some (.warnUnknown 1 unknownDef.type)
      ∧ (∀ j, (convertObjects demoObjs)[j]?
          = (demoObjs[j]?).map (fun o => dispatchObject j o))
      ∧ (∀ j o, demoObjs[j]? = some o → o.type ∈ knownTypes →
          isWarning (dispatchObject j o) = false)) :=
  ⟨⟨by decide, by decide⟩,
    convertObjects_skips_unknown demoObjs 1 unknownDef (by decide) (by decide)⟩
